import Mathlib

/-!
# Verification of `scripts/39_upgrade.py` (maproulette-backend)

Shallow embedding of the one-shot batch migration script.  The script

* selects the ids of all tasks whose `geojson` or `geom` column is NULL,
* accumulates them into an in-memory list, and every time the running
  counter is divisible by 25000 it runs two UPDATE statements (rebuild the
  GeoJSON feature collection from `task_geometries`, and rebuild
  `geom`/`location` from the collected, validity-repaired fragment
  geometries), commits, prints one progress line and clears the list.

The backing store is modelled as an explicit state (`Store`); the PostGIS
geometry operations the SQL invokes are modelled as an uninterpreted free
term algebra, so two geometry values are equal exactly when the script
builds them by the same operations.
-/

set_option maxHeartbeats 1000000

namespace MR

/-- Geometries.  The PostGIS operations used by the script
(`ST_MAKEVALID`, `ST_COLLECT`, `ST_CENTROID`) are uninterpreted
constructors of a free term algebra. -/
inductive Geom where
  | point (x y : Int) : Geom
  | makeValid (g : Geom) : Geom
  | collect (gs : List Geom) : Geom
  | centroid (g : Geom) : Geom

/-- JSON values produced by the SQL statements.  `geo` is the
(uninterpreted, injective) geometry-to-GeoJSON serialization
`ST_AsGeoJSON`. -/
inductive Json where
  | str (s : String) : Json
  | num (n : Int) : Json
  | arr (xs : List Json) : Json
  | obj (fields : List (String × Json)) : Json
  | geo (g : Geom) : Json

/-- One row of the `task_geometries` table: a task id, one raw geometry
and an hstore property bag. -/
structure Fragment where
  task_id : Nat
  geom : Geom
  properties : List (String × String)

/-- One row of the `tasks` table. -/
structure Task where
  id : Nat
  geojson : Option Json
  geom : Option Geom
  location : Option Geom

/-- The backing store: the two tables the script touches. -/
@[ext]
structure Store where
  tasks : List Task
  task_geometries : List Fragment

def ST_MAKEVALID (g : Geom) : Geom := Geom.makeValid g

def ST_COLLECT (gs : List Geom) : Geom := Geom.collect gs

def ST_CENTROID (g : Geom) : Geom := Geom.centroid g

def ST_AsGeoJSON (g : Geom) : Json := Json.geo g

/-- `HSTORE_TO_JSON`: the property bag as a JSON object with string
values. -/
def HSTORE_TO_JSON (props : List (String × String)) : Json :=
  Json.obj (props.map (fun p => (p.1, Json.str p.2)))

/-- All fragments of task `tid` (`FROM task_geometries WHERE task_id = tid`,
grouping of the SQL subqueries modelled per task). -/
def fragsFor (frs : List Fragment) (tid : Nat) : List Fragment :=
  frs.filter (fun f => f.task_id == tid)

/-- The inner row `f` of the first UPDATE statement:
`SELECT task_id, 'Feature' AS type, ST_AsGeoJSON(lg.geom)::JSONB AS geometry,
HSTORE_TO_JSON(lg.properties) AS properties`, serialized to JSON by the
enclosing `ARRAY_TO_JSON(array_agg(f))`. -/
def featureJson (f : Fragment) : Json :=
  Json.obj [("task_id", Json.num (f.task_id : Int)),
            ("type", Json.str "Feature"),
            ("geometry", ST_AsGeoJSON f.geom),
            ("properties", HSTORE_TO_JSON f.properties)]

/-- The row `fc` of the first UPDATE statement, serialized by
`ROW_TO_JSON(fc)::JSONB`: the per-task feature collection. -/
def featureCollectionJson (tid : Nat) (frags : List Fragment) : Json :=
  Json.obj [("task_id", Json.num (tid : Int)),
            ("type", Json.str "FeatureCollection"),
            ("features", Json.arr (frags.map featureJson))]

/-- The aggregate of the second UPDATE statement:
`ST_COLLECT(ST_MAKEVALID(geom))` over the task's fragments. -/
def collectedGeom (frags : List Fragment) : Geom :=
  ST_COLLECT (frags.map (fun f => ST_MAKEVALID f.geom))

/-- Effect of the first UPDATE statement on one `tasks` row: the statement
joins the row (`id IN (idList) AND id = geoms.task_id`) against the per-task
aggregate over `task_geometries`, so a row is updated exactly when its id is
in the batch and it has at least one fragment. -/
def geojsonStep (frs : List Fragment) (ids : List Nat) (t : Task) : Task :=
  let frags := fragsFor frs t.id
  if t.id ∈ ids then
    if frags.isEmpty then t
    else { t with geojson := some (featureCollectionJson t.id frags) }
  else t

/-- Effect of the second UPDATE statement on one `tasks` row
(`SET geom = geoms.geometry, location = ST_CENTROID(geoms.geometry)`). -/
def geomStep (frs : List Fragment) (ids : List Nat) (t : Task) : Task :=
  let frags := fragsFor frs t.id
  if t.id ∈ ids then
    if frags.isEmpty then t
    else { t with geom := some (collectedGeom frags),
                  location := some (ST_CENTROID (collectedGeom frags)) }
  else t

/-- The first UPDATE statement (lines 25-34 of the script). -/
def updateGeojsonStmt (s : Store) (ids : List Nat) : Store :=
  { s with tasks := s.tasks.map (geojsonStep s.task_geometries ids) }

/-- The second UPDATE statement (lines 35-40 of the script). -/
def updateGeomStmt (s : Store) (ids : List Nat) : Store :=
  { s with tasks := s.tasks.map (geomStep s.task_geometries ids) }

/-- One committed batch: both UPDATE statements in order, then `conn.commit()`. -/
def applyBatch (s : Store) (ids : List Nat) : Store :=
  updateGeomStmt (updateGeojsonStmt s ids) ids

/-- The candidate predicate of the SELECT:
`geojson IS NULL OR geom IS NULL`. -/
def isCandidate (t : Task) : Bool :=
  t.geojson.isNone || t.geom.isNone

/-- `SELECT id FROM tasks WHERE geojson IS NULL OR geom IS NULL`,
in store order. -/
def discoverCandidates (s : Store) : List Nat :=
  (s.tasks.filter isCandidate).map Task.id

/-- The hard-coded batch size of the script. -/
def batchSize : Nat := 25000

/-- One progress print:
`print(f"Updated: {counter} ({len(idList)} in {end - start})")`.
The elapsed wall-clock time is not derivable from the store, so it is kept
as an opaque string supplied by an oracle. -/
structure LogLine where
  processedCount : Nat
  batchLen : Nat
  elapsed : String

/-- The rendered progress line. -/
def renderLine (l : LogLine) : String :=
  "Updated: " ++ toString l.processedCount ++ " (" ++ toString l.batchLen
    ++ " in " ++ l.elapsed ++ ")"

/-- The `for row in cur` loop of `main` (lines 18-46).  `e` is the oracle
giving the elapsed time of the n-th flushed batch. -/
def runLoop (e : Nat → String) :
    List Nat → Nat → List Nat → Store → List LogLine → Store × List LogLine
  | [], _, _, s, log => (s, log)
  | cid :: rest, counter, idList, s, log =>
    let idList2 := idList ++ [cid]
    let counter2 := counter + 1
    if counter2 % batchSize = 0 then
      runLoop e rest counter2 [] (applyBatch s idList2)
        (log ++ [⟨counter2, idList2.length, e log.length⟩])
    else
      runLoop e rest counter2 idList2 s log

/-- One run of `main`: discover the candidates, then run the batching loop
with `counter = 0` and an empty `idList`. -/
def migrate (s : Store) (e : Nat → String) : Store × List LogLine :=
  runLoop e (discoverCandidates s) 0 [] s []

/-- The first `n` size-`batchSize` chunks of a list. -/
def chunksAux : Nat → List Nat → List (List Nat)
  | 0, _ => []
  | n + 1, xs => xs.take batchSize :: chunksAux n (xs.drop batchSize)

/-- The full (size-`batchSize`) chunks of a list; the trailing partial
chunk is dropped, as the loop never flushes it. -/
def fullChunks (xs : List Nat) : List (List Nat) :=
  chunksAux (xs.length / batchSize) xs

/-- The candidate ids that end up in some flushed batch: the longest
prefix of the candidate sequence whose length is a multiple of
`batchSize`. -/
def flushedIds (s : Store) : List Nat :=
  (discoverCandidates s).take (batchSize * ((discoverCandidates s).length / batchSize))

/-- The combined per-task effect of a flushed batch that contains the
task's id: both UPDATE statements applied to the row. -/
def migrateTask (frs : List Fragment) (t : Task) : Task :=
  let frags := fragsFor frs t.id
  if frags.isEmpty then t
  else { t with geojson := some (featureCollectionJson t.id frags),
                geom := some (collectedGeom frags),
                location := some (ST_CENTROID (collectedGeom frags)) }

/-! ## Basic lemmas about one batch -/

lemma batchSize_pos : 0 < batchSize := by decide

lemma migrateTask_id (frs : List Fragment) (t : Task) :
    (migrateTask frs t).id = t.id := by
  unfold migrateTask
  by_cases h : (fragsFor frs t.id).isEmpty <;> simp [h]

lemma migrateTask_idem (frs : List Fragment) (t : Task) :
    migrateTask frs (migrateTask frs t) = migrateTask frs t := by
  unfold migrateTask
  by_cases h : (fragsFor frs t.id).isEmpty <;> simp [h]

/-- The two UPDATE statements of one batch act on a row exactly as
`migrateTask` when the row's id is in the batch, and not at all
otherwise. -/
lemma step_eq (frs : List Fragment) (ids : List Nat) (t : Task) :
    geomStep frs ids (geojsonStep frs ids t)
      = if t.id ∈ ids then migrateTask frs t else t := by
  unfold geojsonStep geomStep migrateTask
  by_cases h1 : t.id ∈ ids
  · by_cases h2 : (fragsFor frs t.id).isEmpty <;> simp [h1, h2]
  · simp [h1]

lemma applyBatch_geoms (s : Store) (ids : List Nat) :
    (applyBatch s ids).task_geometries = s.task_geometries := rfl

lemma applyBatch_tasks (s : Store) (ids : List Nat) :
    (applyBatch s ids).tasks
      = s.tasks.map (fun t =>
          if t.id ∈ ids then migrateTask s.task_geometries t else t) := by
  unfold applyBatch updateGeomStmt updateGeojsonStmt
  simp only [List.map_map]
  exact List.map_congr_left (fun t _ => step_eq s.task_geometries ids t)

/-! ## Folding several batches -/

lemma foldl_applyBatch_geoms (chs : List (List Nat)) (s : Store) :
    (List.foldl applyBatch s chs).task_geometries = s.task_geometries := by
  induction chs generalizing s with
  | nil => rfl
  | cons ch chs ih => simpa [List.foldl_cons] using ih (applyBatch s ch)

lemma foldl_applyBatch_tasks (chs : List (List Nat)) (s : Store) :
    (List.foldl applyBatch s chs).tasks
      = s.tasks.map (fun t =>
          List.foldl
            (fun u ids => if u.id ∈ ids then migrateTask s.task_geometries u else u)
            t chs) := by
  induction chs generalizing s with
  | nil => simp
  | cons ch chs ih =>
    have h := ih (applyBatch s ch)
    simp only [List.foldl_cons]
    rw [h, applyBatch_tasks, applyBatch_geoms, List.map_map]
    rfl

/-- Iterating per-batch steps over several batches collapses to a single
application of `migrateTask` when the id occurs in some batch: a first
application sets the three columns and later applications rewrite the same
values (`migrateTask_idem`). -/
lemma foldl_step_eq (frs : List Fragment) (chs : List (List Nat)) (t : Task) :
    List.foldl (fun u ids => if u.id ∈ ids then migrateTask frs u else u) t chs
      = if ∃ ch ∈ chs, t.id ∈ ch then migrateTask frs t else t := by
  induction chs generalizing t with
  | nil => simp
  | cons ch chs ih =>
    simp only [List.foldl_cons]
    by_cases h1 : t.id ∈ ch
    · rw [if_pos h1, ih (migrateTask frs t)]
      have hex : ∃ c ∈ ch :: chs, t.id ∈ c := ⟨ch, List.mem_cons_self _ _, h1⟩
      rw [if_pos hex]
      by_cases h2 : ∃ c ∈ chs, (migrateTask frs t).id ∈ c
      · rw [if_pos h2, migrateTask_idem]
      · rw [if_neg h2]
    · rw [if_neg h1, ih t]
      by_cases h2 : ∃ c ∈ chs, t.id ∈ c
      · rw [if_pos h2, if_pos ⟨h2.choose, List.mem_cons_of_mem _ h2.choose_spec.1,
          h2.choose_spec.2⟩]
      · rw [if_neg h2, if_neg]
        rintro ⟨c, hc, htc⟩
        rcases List.mem_cons.mp hc with rfl | hc'
        · exact h1 htc
        · exact h2 ⟨c, hc', htc⟩

/-! ## Chunk lemmas -/

lemma chunksAux_flatten (n : Nat) :
    ∀ xs : List Nat, n * batchSize ≤ xs.length →
      (chunksAux n xs).flatten = xs.take (n * batchSize) := by
  induction n with
  | zero => intro xs _; simp [chunksAux]
  | succ n ih =>
    intro xs h
    rw [Nat.succ_mul] at h
    have hdrop : n * batchSize ≤ (xs.drop batchSize).length := by
      simp only [List.length_drop]; omega
    simp only [chunksAux, List.flatten_cons, ih _ hdrop]
    rw [Nat.succ_mul, Nat.add_comm (n * batchSize) batchSize, List.take_add]

lemma fullChunks_flatten (xs : List Nat) :
    (fullChunks xs).flatten = xs.take (batchSize * (xs.length / batchSize)) := by
  have h : (xs.length / batchSize) * batchSize ≤ xs.length :=
    Nat.div_mul_le_self _ _
  have h2 := chunksAux_flatten (xs.length / batchSize) xs h
  rw [fullChunks, h2, Nat.mul_comm]

lemma fullChunks_cons (xs ys : List Nat) (h : xs.length = batchSize) :
    fullChunks (xs ++ ys) = xs :: fullChunks ys := by
  unfold fullChunks
  have hlen : (xs ++ ys).length = ys.length + batchSize := by
    simp [h]; omega
  rw [hlen, Nat.add_div_right _ batchSize_pos]
  simp only [chunksAux]
  rw [← h, List.take_left, List.drop_left, h]

lemma mem_chunksAux_length (n : Nat) :
    ∀ (xs ch : List Nat), n * batchSize ≤ xs.length → ch ∈ chunksAux n xs →
      ch.length = batchSize := by
  induction n with
  | zero => intro xs ch _ hch; simp [chunksAux] at hch
  | succ n ih =>
    intro xs ch h hch
    rw [Nat.succ_mul] at h
    simp only [chunksAux, List.mem_cons] at hch
    rcases hch with rfl | hch
    · simp only [List.length_take]; omega
    · exact ih _ _ (by simp only [List.length_drop]; omega) hch

lemma mem_fullChunks_length {xs ch : List Nat} (h : ch ∈ fullChunks xs) :
    ch.length = batchSize :=
  mem_chunksAux_length _ _ _ (Nat.div_mul_le_self _ _) h

lemma mem_of_mem_fullChunks {a : Nat} {xs ch : List Nat}
    (hch : ch ∈ fullChunks xs) (ha : a ∈ ch) : a ∈ xs := by
  have hmem : a ∈ (fullChunks xs).flatten := List.mem_flatten.mpr ⟨ch, hch, ha⟩
  rw [fullChunks_flatten] at hmem
  exact List.mem_of_mem_take hmem

/-! ## The loop invariant: `counter % batchSize = idList.length` -/

lemma succ_mod_batchSize (c : Nat) :
    (c + 1) % batchSize
      = if c % batchSize + 1 = batchSize then 0 else c % batchSize + 1 := by
  simp only [batchSize]
  by_cases h : c % 25000 + 1 = 25000
  · rw [if_pos h]; omega
  · rw [if_neg h]; omega

/-- Final store of the loop: the fold of `applyBatch` over the full chunks
of the pending list followed by the remaining candidates. -/
lemma runLoop_fst (e : Nat → String) :
    ∀ (cands : List Nat) (counter : Nat) (idList : List Nat) (s : Store)
      (log : List LogLine),
      counter % batchSize = idList.length →
      (runLoop e cands counter idList s log).1
        = List.foldl applyBatch s (fullChunks (idList ++ cands)) := by
  intro cands
  induction cands with
  | nil =>
    intro counter idList s log hinv
    have hlt : idList.length < batchSize := by
      rw [← hinv]; exact Nat.mod_lt _ batchSize_pos
    have h0 : idList.length / batchSize = 0 := Nat.div_eq_of_lt hlt
    simp [runLoop, fullChunks, h0, chunksAux]
  | cons cid rest ih =>
    intro counter idList s log hinv
    simp only [runLoop]
    rw [List.append_cons idList cid rest]
    by_cases hf : (counter + 1) % batchSize = 0
    · have hstep := succ_mod_batchSize counter
      rw [hf] at hstep
      have hfull : counter % batchSize + 1 = batchSize := by
        by_contra hne
        rw [if_neg hne] at hstep
        omega
      have hlen : (idList ++ [cid]).length = batchSize := by
        simp only [List.length_append, List.length_cons, List.length_nil]
        omega
      rw [if_pos hf, fullChunks_cons _ _ hlen, List.foldl_cons]
      have := ih (counter + 1) [] (applyBatch s (idList ++ [cid]))
        (log ++ [⟨counter + 1, (idList ++ [cid]).length, e log.length⟩])
        (by simp [hf])
      simpa using this
    · have hstep := succ_mod_batchSize counter
      have hlt : counter % batchSize + 1 ≠ batchSize := by
        intro hc
        rw [if_pos hc] at hstep
        exact hf hstep
      rw [if_neg hlt] at hstep
      rw [if_neg hf]
      exact ih (counter + 1) (idList ++ [cid]) s log
        (by simp only [List.length_append, List.length_cons, List.length_nil]; omega)

/-- Progress log of the loop: one line per flushed batch, with the
cumulative counter, the batch length (always `batchSize`) and the elapsed
time of the oracle. -/
lemma runLoop_snd (e : Nat → String) :
    ∀ (cands : List Nat) (counter : Nat) (idList : List Nat) (s : Store)
      (log : List LogLine),
      counter % batchSize = idList.length →
      (runLoop e cands counter idList s log).2
        = log ++ (List.range ((idList.length + cands.length) / batchSize)).map
            (fun i =>
              ⟨counter + (batchSize - counter % batchSize) + i * batchSize,
               batchSize, e (log.length + i)⟩) := by
  intro cands
  induction cands with
  | nil =>
    intro counter idList s log hinv
    have hlt : idList.length < batchSize := by
      rw [← hinv]; exact Nat.mod_lt _ batchSize_pos
    have h0 : idList.length / batchSize = 0 := Nat.div_eq_of_lt hlt
    simp [runLoop, h0]
  | cons cid rest ih =>
    intro counter idList s log hinv
    simp only [runLoop, List.length_cons]
    by_cases hf : (counter + 1) % batchSize = 0
    · have hstep := succ_mod_batchSize counter
      rw [hf] at hstep
      have hfull : counter % batchSize + 1 = batchSize := by
        by_contra hne
        rw [if_neg hne] at hstep
        omega
      have hlen : (idList ++ [cid]).length = batchSize := by
        simp only [List.length_append, List.length_cons, List.length_nil]
        omega
      rw [if_pos hf]
      have hih := ih (counter + 1) []
        (applyBatch s (idList ++ [cid]))
        (log ++ [LogLine.mk (counter + 1) (idList ++ [cid]).length (e log.length)])
        (by simp [hf])
      rw [hih]
      have hdiv : (idList.length + (rest.length + 1)) / batchSize
          = rest.length / batchSize + 1 := by
        have : idList.length + (rest.length + 1) = rest.length + batchSize := by
          omega
        rw [this, Nat.add_div_right _ batchSize_pos]
      rw [hdiv, List.range_succ_eq_map, List.map_cons, List.map_map]
      simp only [List.length_nil, Nat.zero_add, List.append_assoc,
        List.length_append, List.length_cons, hlen]
      congr 1
      rw [List.singleton_append]
      congr 1
      · have h1 : counter + (batchSize - counter % batchSize) + 0 * batchSize
            = counter + 1 := by omega
        rw [h1]
        rfl
      · apply List.map_congr_left
        intro i _
        simp only [Function.comp]
        have h1 : counter + 1 + (batchSize - (counter + 1) % batchSize)
              + i * batchSize
            = counter + (batchSize - counter % batchSize)
              + Nat.succ i * batchSize := by
          rw [hf]
          simp only [batchSize] at hfull ⊢
          omega
        have h2 : log.length + 1 + i = log.length + Nat.succ i := by omega
        rw [h1, h2]
    · have hstep := succ_mod_batchSize counter
      have hne : counter % batchSize + 1 ≠ batchSize := by
        intro hc
        rw [if_pos hc] at hstep
        exact hf hstep
      rw [if_neg hne] at hstep
      rw [if_neg hf]
      rw [ih (counter + 1) (idList ++ [cid]) s log
        (by simp only [List.length_append, List.length_cons, List.length_nil]
            omega)]
      congr 1
      have hdiv : ((idList ++ [cid]).length + rest.length)
          = idList.length + (rest.length + 1) := by
        simp only [List.length_append, List.length_cons, List.length_nil]
        omega
      rw [hdiv]
      apply List.map_congr_left
      intro i _
      have h1 : counter + 1 + (batchSize - (counter + 1) % batchSize)
            + i * batchSize
          = counter + (batchSize - counter % batchSize) + i * batchSize := by
        rw [hstep]
        simp only [batchSize] at hne ⊢
        omega
      rw [h1]

/-! ## Characterization of one full run -/

/-- A full run leaves `task_geometries` untouched. -/
lemma migrate_geoms (s : Store) (e : Nat → String) :
    (migrate s e).1.task_geometries = s.task_geometries := by
  unfold migrate
  rw [runLoop_fst e _ 0 [] s [] (by simp)]
  exact foldl_applyBatch_geoms _ _

/-- A full run rewrites exactly the rows whose id lies in some flushed
batch (equivalently: in `flushedIds`), and rewrites them with
`migrateTask`. -/
lemma migrate_tasks (s : Store) (e : Nat → String) :
    (migrate s e).1.tasks
      = s.tasks.map (fun t =>
          if t.id ∈ flushedIds s then migrateTask s.task_geometries t else t) := by
  unfold migrate
  rw [runLoop_fst e _ 0 [] s [] (by simp)]
  rw [foldl_applyBatch_tasks]
  apply List.map_congr_left
  intro t _
  rw [foldl_step_eq]
  have hiff : (∃ ch ∈ fullChunks (([] : List Nat) ++ discoverCandidates s),
      t.id ∈ ch) ↔ t.id ∈ flushedIds s := by
    rw [List.nil_append, ← List.mem_flatten, fullChunks_flatten]
    exact Iff.rfl
  exact if_congr hiff rfl rfl

/-- A full run logs one line per flushed batch: the k-th line carries the
cumulative counter `(k+1) * batchSize`, the batch length `batchSize`, and
the k-th elapsed time of the oracle. -/
lemma migrate_log (s : Store) (e : Nat → String) :
    (migrate s e).2
      = (List.range ((discoverCandidates s).length / batchSize)).map
          (fun k => ⟨(k + 1) * batchSize, batchSize, e k⟩) := by
  unfold migrate
  rw [runLoop_snd e _ 0 [] s [] (by simp)]
  simp only [List.length_nil, Nat.zero_add, List.nil_append]
  apply List.map_congr_left
  intro i _
  have h1 : batchSize - 0 % batchSize + i * batchSize
      = (i + 1) * batchSize := by
    simp only [batchSize]
    omega
  rw [h1]

/-- The length of the tasks table is preserved by a run. -/
lemma migrate_tasks_length (s : Store) (e : Nat → String) :
    (migrate s e).1.tasks.length = s.tasks.length := by
  rw [migrate_tasks, List.length_map]

/-- `flushedIds` is a sublist of the candidate sequence. -/
lemma flushedIds_subset {s : Store} {a : Nat} (h : a ∈ flushedIds s) :
    a ∈ discoverCandidates s :=
  List.mem_of_mem_take h

/-- Candidate ids are exactly the ids of tasks failing the null test. -/
lemma mem_discoverCandidates {s : Store} {tid : Nat} :
    tid ∈ discoverCandidates s
      ↔ ∃ t, t ∈ s.tasks ∧ t.id = tid ∧ isCandidate t = true := by
  unfold discoverCandidates
  constructor
  · intro h
    rcases List.mem_map.mp h with ⟨t, ht, rfl⟩
    rcases List.mem_filter.mp ht with ⟨hmem, hcand⟩
    exact ⟨t, hmem, rfl, hcand⟩
  · rintro ⟨t, hmem, rfl, hcand⟩
    exact List.mem_map.mpr ⟨t, List.mem_filter.mpr ⟨hmem, hcand⟩, rfl⟩

/-- When the candidate count is an exact multiple of the batch size, every
candidate is flushed. -/
lemma flushedIds_of_multiple {s : Store}
    (h : (discoverCandidates s).length % batchSize = 0) :
    flushedIds s = discoverCandidates s := by
  unfold flushedIds
  rw [Nat.mul_div_cancel' (Nat.dvd_of_mod_eq_zero h), List.take_length]

/-! ## Failure model for the transactional batch

The database engine is an external collaborator of the script (it is not
part of this repository); its transactional behavior on a statement
failure is therefore modelled from the specification. -/

/-- Modelled from the spec: the transactional apply of one batch.  What is
missing from the sources is the backing store's transaction semantics: the
two UPDATE statements run inside one transaction; a failure of either
statement aborts the transaction, discarding every uncommitted write (in
particular a write already made by the first statement), and the committed
state stays what it was before the batch; only `conn.commit()` after both
statements makes the writes durable.  `fail1`/`fail2` say whether the
first/second statement fails. -/
def applyBatchTx (committed : Store) (ids : List Nat) (fail1 fail2 : Bool) :
    Except Store Store :=
  if fail1 then Except.error committed
  else
    let afterFirst := updateGeojsonStmt committed ids
    if fail2 then Except.error committed
    else Except.ok (updateGeomStmt afterFirst ids)

/-- The batching loop over the failure-aware transaction model; `fails n`
gives the failure flags of the two statements of the n-th flushed batch.
The script catches nothing, so an error is returned unhandled (carrying
the last committed store) and nothing further runs: no retry. -/
def runLoopF (fails : Nat → Bool × Bool) :
    List Nat → Nat → List Nat → Nat → Store → Except Store Store
  | [], _, _, _, s => Except.ok s
  | cid :: rest, counter, idList, b, s =>
    let idList2 := idList ++ [cid]
    let counter2 := counter + 1
    if counter2 % batchSize = 0 then
      match applyBatchTx s idList2 (fails b).1 (fails b).2 with
      | Except.error committed => Except.error committed
      | Except.ok s2 => runLoopF fails rest counter2 [] (b + 1) s2
    else runLoopF fails rest counter2 idList2 b s

/-- A full run of `main` over the failure-aware model. -/
def migrateF (s : Store) (fails : Nat → Bool × Bool) : Except Store Store :=
  runLoopF fails (discoverCandidates s) 0 [] 0 s

lemma applyBatchTx_ok (s : Store) (ids : List Nat) :
    applyBatchTx s ids false false = Except.ok (applyBatch s ids) := rfl

lemma applyBatchTx_error (s : Store) (ids : List Nat) (f1 f2 : Bool)
    (h : f1 = true ∨ f2 = true) :
    applyBatchTx s ids f1 f2 = Except.error s := by
  unfold applyBatchTx
  rcases h with rfl | rfl
  · rfl
  · cases f1 <;> rfl

/-- If the first `n` batches succeed and a statement of batch `n` fails
while the run still has an n-th batch to flush, the loop stops with an
error carrying exactly the state after the first `n` committed batches. -/
lemma runLoopF_error (fails : Nat → Bool × Bool) :
    ∀ (cands : List Nat) (n counter : Nat) (idList : List Nat) (b : Nat)
      (s : Store),
      counter % batchSize = idList.length →
      (∀ m, m < n → fails (b + m) = (false, false)) →
      ((fails (b + n)).1 = true ∨ (fails (b + n)).2 = true) →
      n < (idList.length + cands.length) / batchSize →
      runLoopF fails cands counter idList b s
        = Except.error
            (List.foldl applyBatch s ((fullChunks (idList ++ cands)).take n)) := by
  intro cands
  induction cands with
  | nil =>
    intro n counter idList b s hinv hpre hfail hn
    have hlt : idList.length < batchSize := by
      rw [← hinv]; exact Nat.mod_lt _ batchSize_pos
    have h0 : (idList.length + ([] : List Nat).length) / batchSize = 0 := by
      simp only [List.length_nil, Nat.add_zero]
      exact Nat.div_eq_of_lt hlt
    rw [h0] at hn
    omega
  | cons cid rest ih =>
    intro n counter idList b s hinv hpre hfail hn
    simp only [runLoopF]
    by_cases hf : (counter + 1) % batchSize = 0
    · have hstep := succ_mod_batchSize counter
      rw [hf] at hstep
      have hfull : counter % batchSize + 1 = batchSize := by
        by_contra hne
        rw [if_neg hne] at hstep
        omega
      have hlen : (idList ++ [cid]).length = batchSize := by
        simp only [List.length_append, List.length_cons, List.length_nil]
        omega
      rw [if_pos hf]
      rw [List.append_cons idList cid rest, fullChunks_cons _ _ hlen]
      cases n with
      | zero =>
        rw [applyBatchTx_error s _ _ _ (by simpa using hfail)]
        simp
      | succ n' =>
        have hok : fails b = (false, false) := by
          have := hpre 0 (by omega)
          simpa using this
        have h1 : (fails b).1 = false := by rw [hok]
        have h2 : (fails b).2 = false := by rw [hok]
        rw [h1, h2, applyBatchTx_ok]
        have hdiv : (idList.length + (rest.length + 1)) / batchSize
            = rest.length / batchSize + 1 := by
          have heq : idList.length + (rest.length + 1)
              = rest.length + batchSize := by omega
          rw [heq, Nat.add_div_right _ batchSize_pos]
        have hih := ih n' (counter + 1) [] (b + 1) (applyBatch s (idList ++ [cid]))
          (by simp [hf])
          (fun m hm => by
            have heq : b + 1 + m = b + (m + 1) := by omega
            rw [heq]
            exact hpre (m + 1) (by omega))
          (by
            have heq : b + 1 + n' = b + (n' + 1) := by omega
            rw [heq]
            exact hfail)
          (by
            simp only [List.length_nil, Nat.zero_add]
            simp only [List.length_cons] at hn
            rw [hdiv] at hn
            omega)
        exact hih
    · have hstep := succ_mod_batchSize counter
      have hne : counter % batchSize + 1 ≠ batchSize := by
        intro hc
        rw [if_pos hc] at hstep
        exact hf hstep
      rw [if_neg hne] at hstep
      rw [if_neg hf]
      have hih := ih n (counter + 1) (idList ++ [cid]) b s
        (by simp only [List.length_append, List.length_cons, List.length_nil]
            omega)
        hpre hfail
        (by
          simp only [List.length_append, List.length_cons, List.length_nil]
          simp only [List.length_cons] at hn
          have heq : idList.length + 1 + rest.length
              = idList.length + (rest.length + 1) := by omega
          rw [heq]
          exact hn)
      rw [List.append_cons idList cid rest]
      exact hih

/-! ## Concrete stores used as witnesses -/

/-- A tasks row with every derived column unset. -/
def nullTask (i : Nat) : Task := ⟨i, none, none, none⟩

/-- A store of `n` candidate tasks with ids `0 .. n-1` over fragment table
`frs`. -/
def rangeStore (n : Nat) (frs : List Fragment) : Store :=
  ⟨(List.range n).map nullTask, frs⟩

/-- A fixed elapsed-time oracle. -/
def e0 : Nat → String := fun _ => "0.5"

lemma rangeStore_tasks (n : Nat) (frs : List Fragment) :
    (rangeStore n frs).tasks = (List.range n).map nullTask := rfl

lemma rangeStore_geoms (n : Nat) (frs : List Fragment) :
    (rangeStore n frs).task_geometries = frs := rfl

lemma discover_rangeStore (n : Nat) (frs : List Fragment) :
    discoverCandidates (rangeStore n frs) = List.range n := by
  unfold discoverCandidates rangeStore
  have hfilter : List.filter (isCandidate ∘ nullTask) (List.range n)
      = List.range n :=
    List.filter_eq_self.mpr (fun a _ => rfl)
  rw [List.filter_map, hfilter, List.map_map]
  have hcomp : (Task.id ∘ nullTask) = fun a : Nat => a := rfl
  rw [hcomp, List.map_id']

/-! ## Small helper lemmas for the claim theorems -/

lemma migrateTask_of_ne (frs : List Fragment) (t : Task)
    (h : fragsFor frs t.id ≠ []) :
    migrateTask frs t
      = { t with
          geojson := some (featureCollectionJson t.id (fragsFor frs t.id)),
          geom := some (collectedGeom (fragsFor frs t.id)),
          location := some (ST_CENTROID (collectedGeom (fragsFor frs t.id))) } := by
  unfold migrateTask
  rw [if_neg (by simpa [List.isEmpty_iff] using h)]

lemma migrateTask_of_empty (frs : List Fragment) (t : Task)
    (h : fragsFor frs t.id = []) :
    migrateTask frs t = t := by
  unfold migrateTask
  rw [if_pos (List.isEmpty_iff.mpr h)]

lemma isCandidate_iff {t : Task} :
    isCandidate t = true ↔ t.geojson = none ∨ t.geom = none := by
  simp [isCandidate, Option.isNone_iff_eq_none]

lemma eq_of_nodup_ids {l : List Task} (hnd : (l.map Task.id).Nodup)
    {u v : Task} (hu : u ∈ l) (hv : v ∈ l) (h : u.id = v.id) : u = v := by
  induction l with
  | nil => cases hu
  | cons a l ih =>
    rw [List.map_cons, List.nodup_cons] at hnd
    rcases List.mem_cons.mp hu with rfl | hu' <;>
      rcases List.mem_cons.mp hv with rfl | hv'
    · rfl
    · exfalso; apply hnd.1; rw [h]; exact List.mem_map_of_mem Task.id hv'
    · exfalso; apply hnd.1; rw [← h]; exact List.mem_map_of_mem Task.id hu'
    · exact ih hnd.2 hu' hv'

lemma task_eq_update_of_id_eq {u t : Task} (h : u.id = t.id) :
    u = { t with geojson := u.geojson, geom := u.geom,
                 location := u.location } := by
  cases u
  cases t
  simp only [Task.mk.injEq] at h ⊢
  simp [h]

lemma flushedIds_rangeStore_multiple (n : Nat) (frs : List Fragment)
    (h : n % batchSize = 0) :
    flushedIds (rangeStore n frs) = List.range n := by
  have hlen : (discoverCandidates (rangeStore n frs)).length % batchSize
      = 0 := by
    rw [discover_rangeStore, List.length_range]; exact h
  rw [flushedIds_of_multiple hlen, discover_rangeStore]

/-! ## The claims -/

/-- C1: for every candidate task that has at least one associated fragment
and whose id lies in a flushed batch, after the run its `geojson` equals
the serialized feature collection built from all of its fragments (one
feature per fragment, carrying the fragment's geometry serialized as
GeoJSON and its property bag serialized as a JSON object), its `geom`
equals the collected union of all its fragment geometries after each is
made topologically valid, and its `location` equals the centroid of that
union. -/
theorem spec_C1 (s : Store) (e : Nat → String) (t : Task)
    (ht : t ∈ s.tasks) (hfl : t.id ∈ flushedIds s)
    (hfr : fragsFor s.task_geometries t.id ≠ []) :
    ∃ u, u ∈ (migrate s e).1.tasks ∧ u.id = t.id ∧
      u.geojson
        = some (featureCollectionJson t.id (fragsFor s.task_geometries t.id)) ∧
      u.geom = some (collectedGeom (fragsFor s.task_geometries t.id)) ∧
      u.location
        = some (ST_CENTROID (collectedGeom (fragsFor s.task_geometries t.id))) := by
  refine ⟨migrateTask s.task_geometries t, ?_, ?_, ?_, ?_, ?_⟩
  · rw [migrate_tasks]
    exact List.mem_map.mpr ⟨t, ht, by rw [if_pos hfl]⟩
  · exact migrateTask_id _ _
  · rw [migrateTask_of_ne _ _ hfr]
  · rw [migrateTask_of_ne _ _ hfr]
  · rw [migrateTask_of_ne _ _ hfr]

/-- A single fragment attached to task 0, used by witnesses. -/
def demoFrag : Fragment := ⟨0, Geom.point 1 2, [("key", "value")]⟩

/-- Witness store for C1: exactly one full batch of all-null candidate
tasks, task 0 carrying one fragment. -/
def W1 : Store := rangeStore batchSize [demoFrag]

theorem spec_C1_witness :
    nullTask 0 ∈ W1.tasks ∧
    (nullTask 0).id ∈ flushedIds W1 ∧
    fragsFor W1.task_geometries (nullTask 0).id ≠ [] ∧
    ∃ u, u ∈ (migrate W1 e0).1.tasks ∧ u.id = (nullTask 0).id ∧
      u.geojson = some (featureCollectionJson (nullTask 0).id
        (fragsFor W1.task_geometries (nullTask 0).id)) ∧
      u.geom
        = some (collectedGeom (fragsFor W1.task_geometries (nullTask 0).id)) ∧
      u.location = some (ST_CENTROID (collectedGeom
        (fragsFor W1.task_geometries (nullTask 0).id))) := by
  have h1 : nullTask 0 ∈ W1.tasks := by
    unfold W1
    rw [rangeStore_tasks]
    exact List.mem_map_of_mem nullTask (List.mem_range.mpr batchSize_pos)
  have h2 : (nullTask 0).id ∈ flushedIds W1 := by
    show (0 : Nat) ∈ flushedIds W1
    unfold W1
    rw [flushedIds_rangeStore_multiple _ _ (Nat.mod_self batchSize)]
    exact List.mem_range.mpr batchSize_pos
  have h3 : fragsFor W1.task_geometries (nullTask 0).id ≠ [] := by
    unfold W1
    rw [rangeStore_geoms]
    simp [fragsFor, demoFrag, nullTask]
  exact ⟨h1, h2, h3, spec_C1 W1 e0 (nullTask 0) h1 h2 h3⟩

/-- C7: candidate discovery selects exactly the identifiers of tasks whose
`geojson` column is null or whose `geom` column is null; and (under unique
task ids) a task with both columns non-null never has its id accumulated
into any flushed batch. -/
theorem spec_C7 (s : Store) :
    (∀ tid, tid ∈ discoverCandidates s
        ↔ ∃ t, t ∈ s.tasks ∧ t.id = tid
            ∧ (t.geojson = none ∨ t.geom = none)) ∧
    ((s.tasks.map Task.id).Nodup →
      ∀ t, t ∈ s.tasks → t.geojson ≠ none → t.geom ≠ none →
        ∀ ch, ch ∈ fullChunks (discoverCandidates s) → t.id ∉ ch) := by
  constructor
  · intro tid
    rw [mem_discoverCandidates]
    constructor
    · rintro ⟨t, hmem, rfl, hcand⟩
      exact ⟨t, hmem, rfl, isCandidate_iff.mp hcand⟩
    · rintro ⟨t, hmem, rfl, hnull⟩
      exact ⟨t, hmem, rfl, isCandidate_iff.mpr hnull⟩
  · intro hnd t hmem hgj hgm ch hch hin
    have hcand : t.id ∈ discoverCandidates s := mem_of_mem_fullChunks hch hin
    rcases mem_discoverCandidates.mp hcand with ⟨v, hvmem, hvid, hvcand⟩
    have heq : v = t := eq_of_nodup_ids hnd hvmem hmem hvid
    rw [heq] at hvcand
    rcases isCandidate_iff.mp hvcand with h | h
    · exact hgj h
    · exact hgm h

/-- Witness store for the small-store claims: one candidate task and one
already-migrated task, no fragments. -/
def W7 : Store :=
  ⟨[⟨1, none, none, none⟩,
    ⟨2, some (Json.str "done"), some (Geom.point 3 4), none⟩], []⟩

theorem spec_C7_witness :
    ((1 : Nat) ∈ discoverCandidates W7
      ↔ ∃ t, t ∈ W7.tasks ∧ t.id = 1
          ∧ (t.geojson = none ∨ t.geom = none)) ∧
    (W7.tasks.map Task.id).Nodup ∧
    (∀ ch, ch ∈ fullChunks (discoverCandidates W7) → (2 : Nat) ∉ ch) := by
  have hnd : (W7.tasks.map Task.id).Nodup := by
    unfold W7
    simp only [List.map_cons, List.map_nil]
    decide
  have hmem :
      (⟨2, some (Json.str "done"), some (Geom.point 3 4), none⟩ : Task)
        ∈ W7.tasks := by
    unfold W7
    simp
  refine ⟨(spec_C7 W7).1 1, hnd, ?_⟩
  exact (spec_C7 W7).2 hnd _ hmem (by simp) (by simp)

/-- C8: a run mutates only the `geojson`, `geom` and `location` columns of
rows whose id lies in a flushed batch: `task_geometries` is untouched, no
`tasks` row is created or deleted, every row keeps its position and its
id, and any row whose id is in no flushed batch is entirely unchanged. -/
theorem spec_C8 (s : Store) (e : Nat → String) :
    (migrate s e).1.task_geometries = s.task_geometries ∧
    (migrate s e).1.tasks.length = s.tasks.length ∧
    ∀ (i : Nat) (t : Task), s.tasks[i]? = some t →
      ∃ u, (migrate s e).1.tasks[i]? = some u ∧
        u = { t with geojson := u.geojson, geom := u.geom,
                     location := u.location } ∧
        (t.id ∉ flushedIds s → u = t) := by
  refine ⟨migrate_geoms s e, migrate_tasks_length s e, ?_⟩
  intro i t hit
  refine ⟨if t.id ∈ flushedIds s then migrateTask s.task_geometries t else t,
    ?_, ?_, ?_⟩
  · rw [migrate_tasks, List.getElem?_map, hit]
    rfl
  · by_cases h : t.id ∈ flushedIds s
    · rw [if_pos h]
      exact task_eq_update_of_id_eq (migrateTask_id _ _)
    · rw [if_neg h]
  · intro hnot
    rw [if_neg hnot]

theorem spec_C8_witness :
    W7.tasks[0]? = some ⟨1, none, none, none⟩ ∧
    ∃ u, (migrate W7 e0).1.tasks[0]? = some u ∧
      u = { (⟨1, none, none, none⟩ : Task) with
            geojson := u.geojson, geom := u.geom, location := u.location } ∧
      ((1 : Nat) ∉ flushedIds W7 → u = ⟨1, none, none, none⟩) := by
  have hit : W7.tasks[0]? = some ⟨1, none, none, none⟩ := rfl
  exact ⟨hit, (spec_C8 W7 e0).2.2 0 _ hit⟩

/-- C10: a candidate task with zero fragments in `task_geometries` is
untouched by any batch that contains its id (both UPDATE statements join
against per-task aggregates over `task_geometries`), is untouched by a
whole run, and still satisfies the candidate predicate afterwards. -/
theorem spec_C10 (s : Store) (ids : List Nat) (e : Nat → String)
    (i : Nat) (t : Task) (hit : s.tasks[i]? = some t)
    (hfr : fragsFor s.task_geometries t.id = []) :
    (applyBatch s ids).tasks[i]? = some t ∧
    (migrate s e).1.tasks[i]? = some t ∧
    (isCandidate t = true → t.id ∈ discoverCandidates (migrate s e).1) := by
  have hbatch : (applyBatch s ids).tasks[i]? = some t := by
    rw [applyBatch_tasks, List.getElem?_map, hit]
    show some (if t.id ∈ ids then migrateTask s.task_geometries t else t)
        = some t
    by_cases h : t.id ∈ ids
    · rw [if_pos h, migrateTask_of_empty _ _ hfr]
    · rw [if_neg h]
  have hrun : (migrate s e).1.tasks[i]? = some t := by
    rw [migrate_tasks, List.getElem?_map, hit]
    show some (if t.id ∈ flushedIds s then migrateTask s.task_geometries t
        else t) = some t
    by_cases h : t.id ∈ flushedIds s
    · rw [if_pos h, migrateTask_of_empty _ _ hfr]
    · rw [if_neg h]
  refine ⟨hbatch, hrun, fun hc => ?_⟩
  exact mem_discoverCandidates.mpr ⟨t, List.getElem?_mem hrun, rfl, hc⟩

theorem spec_C10_witness :
    W7.tasks[0]? = some ⟨1, none, none, none⟩ ∧
    fragsFor W7.task_geometries (1 : Nat) = [] ∧
    (applyBatch W7 [1]).tasks[0]? = some ⟨1, none, none, none⟩ ∧
    (migrate W7 e0).1.tasks[0]? = some ⟨1, none, none, none⟩ ∧
    (1 : Nat) ∈ discoverCandidates (migrate W7 e0).1 := by
  have hit : W7.tasks[0]? = some ⟨1, none, none, none⟩ := rfl
  have hfr : fragsFor W7.task_geometries
      ((⟨1, none, none, none⟩ : Task)).id = [] := rfl
  have h := spec_C10 W7 [1] e0 0 _ hit hfr
  exact ⟨hit, hfr, h.1, h.2.1, h.2.2 rfl⟩

/-- C5: a batch is applied exactly when the processed counter is divisible
by the (fixed) batch size of 25000 and the pending list is cleared right
after each apply: a run flushes exactly `⌊candidates / batchSize⌋` batches
and every flushed batch carries exactly `batchSize` identifiers, as
recorded in the per-flush log entries and visible on every flushed
chunk. -/
theorem spec_C5 (s : Store) (e : Nat → String) :
    (migrate s e).2
      = (List.range ((discoverCandidates s).length / batchSize)).map
          (fun k => ⟨(k + 1) * batchSize, batchSize, e k⟩) ∧
    ∀ ch, ch ∈ fullChunks (discoverCandidates s) → ch.length = batchSize :=
  ⟨migrate_log s e, fun _ hch => mem_fullChunks_length hch⟩

lemma fullChunks_range_batchSize :
    fullChunks (List.range batchSize) = [List.range batchSize] := by
  unfold fullChunks
  rw [List.length_range, Nat.div_self batchSize_pos]
  simp only [chunksAux]
  rw [List.take_range, Nat.min_self]

theorem spec_C5_witness :
    List.range batchSize
      ∈ fullChunks (discoverCandidates (rangeStore batchSize [])) ∧
    (List.range batchSize).length = batchSize := by
  have hch : List.range batchSize
      ∈ fullChunks (discoverCandidates (rangeStore batchSize [])) := by
    rw [discover_rangeStore, fullChunks_range_batchSize]
    exact List.mem_singleton.mpr rfl
  exact ⟨hch, (spec_C5 (rangeStore batchSize []) e0).2 _ hch⟩

/-- C9: each completed batch emits exactly one progress line of the form
`Updated: <processedCount> (<batchSize> in <elapsedSeconds>)`, where the
processed count is the cumulative number of candidates consumed so far,
the middle figure is the number of identifiers in the batch just applied,
and the elapsed slot holds the oracle's wall-clock reading for that batch;
the run produces no other batch-level output. -/
theorem spec_C9 (s : Store) (e : Nat → String) :
    ((migrate s e).2).map renderLine
      = (List.range ((discoverCandidates s).length / batchSize)).map
          (fun k => "Updated: " ++ toString ((k + 1) * batchSize) ++ " ("
            ++ toString batchSize ++ " in " ++ e k ++ ")") := by
  rw [migrate_log, List.map_map]
  rfl

/-- C2: when the candidate sequence has exactly `batchSize + k` elements
with `0 < k < batchSize`, exactly one batch — the first `batchSize`
candidates — is flushed, and every task carrying one of the trailing `k`
identifiers is left entirely unchanged when the run completes. -/
theorem spec_C2 (s : Store) (e : Nat → String) (k : Nat)
    (hlen : (discoverCandidates s).length = batchSize + k)
    (_hk0 : 0 < k) (hk : k < batchSize)
    (hnd : (discoverCandidates s).Nodup) :
    flushedIds s = (discoverCandidates s).take batchSize ∧
    (migrate s e).1.tasks
      = s.tasks.map (fun t =>
          if t.id ∈ (discoverCandidates s).take batchSize
          then migrateTask s.task_geometries t else t) ∧
    ∀ (i : Nat) (t : Task), s.tasks[i]? = some t →
      t.id ∈ (discoverCandidates s).drop batchSize →
      (migrate s e).1.tasks[i]? = some t := by
  have hdiv : (discoverCandidates s).length / batchSize = 1 := by
    rw [hlen, Nat.add_comm, Nat.add_div_right _ batchSize_pos,
      Nat.div_eq_of_lt hk]
  have hfl : flushedIds s = (discoverCandidates s).take batchSize := by
    unfold flushedIds
    rw [hdiv, Nat.mul_one]
  refine ⟨hfl, ?_, ?_⟩
  · rw [migrate_tasks, hfl]
  · intro i t hit hdropmem
    have hnotin : t.id ∉ (discoverCandidates s).take batchSize := by
      intro htake
      exact (List.disjoint_take_drop hnd (Nat.le_refl batchSize))
        htake hdropmem
    rw [migrate_tasks, List.getElem?_map, hit, hfl]
    show some (if t.id ∈ (discoverCandidates s).take batchSize
        then migrateTask s.task_geometries t else t) = some t
    rw [if_neg hnotin]

theorem spec_C2_witness :
    (discoverCandidates (rangeStore (batchSize + 1) [])).length
      = batchSize + 1 ∧
    0 < 1 ∧ 1 < batchSize ∧
    (discoverCandidates (rangeStore (batchSize + 1) [])).Nodup ∧
    flushedIds (rangeStore (batchSize + 1) [])
      = (discoverCandidates (rangeStore (batchSize + 1) [])).take batchSize := by
  have hlen : (discoverCandidates (rangeStore (batchSize + 1) [])).length
      = batchSize + 1 := by
    rw [discover_rangeStore, List.length_range]
  have hnd : (discoverCandidates (rangeStore (batchSize + 1) [])).Nodup := by
    rw [discover_rangeStore]
    exact List.nodup_range _
  exact ⟨hlen, Nat.one_pos, by decide, hnd,
    (spec_C2 (rangeStore (batchSize + 1) []) e0 1 hlen Nat.one_pos
      (by decide) hnd).1⟩

/-- C4: if either UPDATE statement of a batch fails, the enclosing
transaction for that batch is never committed: the run's resulting state
is exactly the pre-batch committed state (no column written by either
statement of the batch persists), the error is not caught by the migrator
(the run's overall result is the propagated error), and nothing further is
executed — no retry. -/
theorem spec_C4 (σ : Store) (ids : List Nat) (f1 f2 : Bool)
    (s : Store) (fails : Nat → Bool × Bool) (n : Nat) :
    (f1 = true ∨ f2 = true → applyBatchTx σ ids f1 f2 = Except.error σ) ∧
    ((∀ m, m < n → fails m = (false, false)) →
      ((fails n).1 = true ∨ (fails n).2 = true) →
      n < (discoverCandidates s).length / batchSize →
      migrateF s fails
        = Except.error (List.foldl applyBatch s
            ((fullChunks (discoverCandidates s)).take n))) := by
  refine ⟨applyBatchTx_error σ ids f1 f2, ?_⟩
  intro hpre hfail hn
  unfold migrateF
  exact runLoopF_error fails (discoverCandidates s) n 0 [] 0 s (by simp)
    (fun m hm => by simpa using hpre m hm)
    (by simpa using hfail)
    (by simpa using hn)

theorem spec_C4_witness :
    applyBatchTx W7 [1] true false = Except.error W7 ∧
    (0 : Nat)
      < (discoverCandidates (rangeStore batchSize [])).length / batchSize ∧
    migrateF (rangeStore batchSize []) (fun _ => (true, true))
      = Except.error (rangeStore batchSize []) := by
  have hn : (0 : Nat)
      < (discoverCandidates (rangeStore batchSize [])).length / batchSize := by
    rw [discover_rangeStore, List.length_range, Nat.div_self batchSize_pos]
    exact Nat.one_pos
  have h := spec_C4 W7 [1] true false (rangeStore batchSize [])
    (fun _ => (true, true)) 0
  refine ⟨h.1 (Or.inl rfl), hn, ?_⟩
  have h2 := h.2 (fun m hm => absurd hm (Nat.not_lt_zero m)) (Or.inl rfl) hn
  simpa using h2

/-- C3 counterexample: with exactly one full batch of candidates and an
empty `task_geometries` table, the candidate count is an exact multiple of
the batch size, yet task 0 — a candidate — still has null `geojson` and
null `geom` after the run, because a fragmentless task matches no row of
either UPDATE statement. -/
theorem spec_C3_cx :
    (discoverCandidates (rangeStore batchSize [])).length % batchSize = 0 ∧
    (rangeStore batchSize []).tasks[0]? = some (nullTask 0) ∧
    isCandidate (nullTask 0) = true ∧
    (migrate (rangeStore batchSize []) e0).1.tasks[0]?
      = some (nullTask 0) ∧
    (nullTask 0).geojson = none ∧ (nullTask 0).geom = none := by
  have hmod :
      (discoverCandidates (rangeStore batchSize [])).length % batchSize
        = 0 := by
    rw [discover_rangeStore, List.length_range, Nat.mod_self]
  have hit : (rangeStore batchSize []).tasks[0]? = some (nullTask 0) := by
    rw [rangeStore_tasks, List.getElem?_map,
      List.getElem?_range batchSize_pos]
    rfl
  have hfin : (migrate (rangeStore batchSize []) e0).1.tasks[0]?
      = some (nullTask 0) := by
    rw [migrate_tasks, List.getElem?_map, hit]
    show some (if (nullTask 0).id ∈ flushedIds (rangeStore batchSize [])
        then migrateTask (rangeStore batchSize []).task_geometries
          (nullTask 0)
        else nullTask 0) = some (nullTask 0)
    by_cases h : (nullTask 0).id ∈ flushedIds (rangeStore batchSize [])
    · rw [if_pos h, migrateTask_of_empty
        (rangeStore batchSize []).task_geometries (nullTask 0) rfl]
    · rw [if_neg h]
  exact ⟨hmod, hit, rfl, hfin, rfl, rfl⟩

/-- C3 (amended): when the candidate count is an exact multiple of the
batch size, every candidate task *that has at least one associated
fragment* ends the run with non-null `geojson` and non-null `geom`.  (The
claim as stated is false for fragmentless candidates, which both UPDATE
statements skip; see the counterexample and C10.) -/
theorem spec_C3 (s : Store) (e : Nat → String)
    (hmul : (discoverCandidates s).length % batchSize = 0)
    (i : Nat) (t : Task) (hit : s.tasks[i]? = some t)
    (hc : isCandidate t = true)
    (hfr : fragsFor s.task_geometries t.id ≠ []) :
    ∃ u, (migrate s e).1.tasks[i]? = some u ∧
      u.geojson.isSome = true ∧ u.geom.isSome = true := by
  have hmem : t ∈ s.tasks := List.getElem?_mem hit
  have hcand : t.id ∈ discoverCandidates s :=
    mem_discoverCandidates.mpr ⟨t, hmem, rfl, hc⟩
  have hfl : t.id ∈ flushedIds s := by
    rw [flushedIds_of_multiple hmul]
    exact hcand
  refine ⟨migrateTask s.task_geometries t, ?_, ?_, ?_⟩
  · rw [migrate_tasks, List.getElem?_map, hit]
    show some (if t.id ∈ flushedIds s then migrateTask s.task_geometries t
        else t) = some (migrateTask s.task_geometries t)
    rw [if_pos hfl]
  · rw [migrateTask_of_ne _ _ hfr]
    rfl
  · rw [migrateTask_of_ne _ _ hfr]
    rfl

theorem spec_C3_witness :
    (discoverCandidates W1).length % batchSize = 0 ∧
    W1.tasks[0]? = some (nullTask 0) ∧
    isCandidate (nullTask 0) = true ∧
    fragsFor W1.task_geometries (nullTask 0).id ≠ [] ∧
    ∃ u, (migrate W1 e0).1.tasks[0]? = some u ∧
      u.geojson.isSome = true ∧ u.geom.isSome = true := by
  have hA : discoverCandidates W1 = List.range batchSize := by
    unfold W1
    exact discover_rangeStore batchSize [demoFrag]
  have hmod : (discoverCandidates W1).length % batchSize = 0 := by
    rw [hA, List.length_range, Nat.mod_self]
  have hB : W1.tasks = (List.range batchSize).map nullTask := by
    unfold W1
    exact rangeStore_tasks batchSize [demoFrag]
  have hit : W1.tasks[0]? = some (nullTask 0) := by
    rw [hB, List.getElem?_map, List.getElem?_range batchSize_pos]
    rfl
  have hC : W1.task_geometries = [demoFrag] := by
    unfold W1
    exact rangeStore_geoms batchSize [demoFrag]
  have hfr : fragsFor W1.task_geometries (nullTask 0).id ≠ [] := by
    rw [hC]
    simp [fragsFor, demoFrag, nullTask]
  exact ⟨hmod, hit, rfl, hfr, spec_C3 W1 e0 hmod 0 (nullTask 0) hit rfl hfr⟩

/-! ## C6: idempotence -/

lemma rangeStore_ids (n : Nat) (frs : List Fragment) :
    (rangeStore n frs).tasks.map Task.id = List.range n := by
  rw [rangeStore_tasks, List.map_map]
  have hcomp : (Task.id ∘ nullTask) = fun a : Nat => a := rfl
  rw [hcomp, List.map_id']

/-- The per-run id multiset of the tasks table is unchanged. -/
lemma migrate_ids (s : Store) (e : Nat → String) :
    (migrate s e).1.tasks.map Task.id = s.tasks.map Task.id := by
  rw [migrate_tasks, List.map_map]
  apply List.map_congr_left
  intro t _
  simp only [Function.comp_apply]
  by_cases h : t.id ∈ flushedIds s
  · rw [if_pos h]
    exact migrateTask_id _ _
  · rw [if_neg h]

/-- C6 (amended): when the candidate count is an exact multiple of the
batch size (and task ids are unique), running the migration twice in
succession yields the same store as running it once: every batch the
second run flushes contains only fragmentless (hence unchangeable)
candidates.  For non-multiple counts the original claim fails — a trailing
fragment-bearing candidate left unflushed by the first run can be flushed,
and changed, by the second run (see the counterexample). -/
theorem spec_C6 (s : Store) (e1 e2 : Nat → String)
    (hnd : (s.tasks.map Task.id).Nodup)
    (hmul : (discoverCandidates s).length % batchSize = 0) :
    (migrate (migrate s e1).1 e2).1 = (migrate s e1).1 := by
  have hnd1 : ((migrate s e1).1.tasks.map Task.id).Nodup := by
    rw [migrate_ids]
    exact hnd
  have hfix : ∀ u ∈ (migrate s e1).1.tasks,
      (if u.id ∈ flushedIds (migrate s e1).1
       then migrateTask (migrate s e1).1.task_geometries u else u) = u := by
    intro u hu
    by_cases hin : u.id ∈ flushedIds (migrate s e1).1
    · rw [if_pos hin]
      have hcand2 : u.id ∈ discoverCandidates (migrate s e1).1 :=
        flushedIds_subset hin
      rcases mem_discoverCandidates.mp hcand2 with ⟨v, hv, hvid, hvcand⟩
      have hveq : v = u := eq_of_nodup_ids hnd1 hv hu hvid
      rw [hveq] at hvcand
      rw [migrate_tasks] at hu
      rcases List.mem_map.mp hu with ⟨t, ht, himg⟩
      have himg2 : (if t.id ∈ flushedIds s
          then migrateTask s.task_geometries t else t) = u := himg
      have hempty : fragsFor s.task_geometries u.id = [] := by
        by_cases htin : t.id ∈ flushedIds s
        · rw [if_pos htin] at himg2
          by_cases hfr : fragsFor s.task_geometries t.id = []
          · rw [migrateTask_of_empty _ _ hfr] at himg2
            rw [← himg2]
            exact hfr
          · exfalso
            rw [migrateTask_of_ne _ _ hfr] at himg2
            rw [← himg2] at hvcand
            simp [isCandidate] at hvcand
        · rw [if_neg htin] at himg2
          exfalso
          apply htin
          rw [flushedIds_of_multiple hmul]
          apply mem_discoverCandidates.mpr
          refine ⟨t, ht, rfl, ?_⟩
          rw [himg2]
          exact hvcand
      rw [migrate_geoms, migrateTask_of_empty _ _ hempty]
    · rw [if_neg hin]
  have htasks : (migrate (migrate s e1).1 e2).1.tasks
      = (migrate s e1).1.tasks := by
    rw [migrate_tasks, List.map_congr_left hfix, List.map_id']
  exact Store.ext htasks (migrate_geoms _ _)

theorem spec_C6_witness :
    (W1.tasks.map Task.id).Nodup ∧
    (discoverCandidates W1).length % batchSize = 0 ∧
    (migrate (migrate W1 e0).1 e0).1 = (migrate W1 e0).1 := by
  have hnd : (W1.tasks.map Task.id).Nodup := by
    unfold W1
    rw [rangeStore_ids]
    exact List.nodup_range _
  have hA : discoverCandidates W1 = List.range batchSize := by
    unfold W1
    exact discover_rangeStore batchSize [demoFrag]
  have hmod : (discoverCandidates W1).length % batchSize = 0 := by
    rw [hA, List.length_range, Nat.mod_self]
  exact ⟨hnd, hmod, spec_C6 W1 e0 e0 hnd hmod⟩

/-- Fragments for the idempotence counterexample: of `batchSize + 1`
candidate tasks only the first and the last carry a fragment. -/
def edgeFrags : List Fragment :=
  [⟨0, Geom.point 0 0, []⟩, ⟨batchSize, Geom.point 1 1, []⟩]

/-- The idempotence counterexample store. -/
def C6s : Store := rangeStore (batchSize + 1) edgeFrags

lemma C6s_tasks : C6s.tasks = (List.range (batchSize + 1)).map nullTask := by
  unfold C6s
  exact rangeStore_tasks _ _

lemma C6s_geoms : C6s.task_geometries = edgeFrags := by
  unfold C6s
  exact rangeStore_geoms _ _

lemma C6s_cands : discoverCandidates C6s = List.range (batchSize + 1) := by
  unfold C6s
  exact discover_rangeStore _ _

lemma flushedIds_C6s : flushedIds C6s = List.range batchSize := by
  unfold flushedIds
  rw [C6s_cands, List.length_range]
  have hdiv : (batchSize + 1) / batchSize = 1 := by
    rw [Nat.add_comm, Nat.add_div_right _ batchSize_pos,
      Nat.div_eq_of_lt (by decide : (1 : Nat) < batchSize)]
  rw [hdiv, Nat.mul_one, List.take_range,
    Nat.min_eq_left (Nat.le_succ batchSize)]

lemma fragsFor_edge_zero :
    fragsFor edgeFrags 0 = [⟨0, Geom.point 0 0, []⟩] := rfl

lemma fragsFor_edge_top :
    fragsFor edgeFrags batchSize = [⟨batchSize, Geom.point 1 1, []⟩] := rfl

lemma fragsFor_edge_mid (i : Nat) (h0 : i ≠ 0) (hbs : i ≠ batchSize) :
    fragsFor edgeFrags i = [] := by
  unfold fragsFor edgeFrags
  rw [List.filter_cons_of_neg (by simp; omega),
    List.filter_cons_of_neg (by simp; omega), List.filter_nil]

/-- The per-task effect of the first run on the counterexample store. -/
def C6step (i : Nat) : Task :=
  if i ∈ List.range batchSize
  then migrateTask edgeFrags (nullTask i) else nullTask i

lemma C6step_mem (i : Nat) (h : i < batchSize) :
    C6step i = migrateTask edgeFrags (nullTask i) :=
  if_pos (List.mem_range.mpr h)

lemma C6step_not_mem (i : Nat) (h : ¬ i < batchSize) :
    C6step i = nullTask i :=
  if_neg (fun hm => h (List.mem_range.mp hm))

lemma C6step_id (i : Nat) : (C6step i).id = i := by
  unfold C6step
  by_cases h : i ∈ List.range batchSize
  · rw [if_pos h]
    exact migrateTask_id _ _
  · rw [if_neg h]
    rfl

lemma isCandidate_C6step_zero : isCandidate (C6step 0) = false := by
  rw [C6step_mem 0 batchSize_pos,
    migrateTask_of_ne edgeFrags (nullTask 0)
      (by show fragsFor edgeFrags 0 ≠ []
          rw [fragsFor_edge_zero]
          simp)]
  rfl

lemma isCandidate_C6step_succ (j : Nat) (_hj : j < batchSize) :
    isCandidate (C6step (j + 1)) = true := by
  by_cases hlt : j + 1 < batchSize
  · rw [C6step_mem _ hlt,
      migrateTask_of_empty edgeFrags (nullTask (j + 1))
        (by show fragsFor edgeFrags (j + 1) = []
            exact fragsFor_edge_mid (j + 1) (by omega) (by omega))]
    rfl
  · rw [C6step_not_mem _ hlt]
    rfl

lemma C6_s1_tasks : (migrate C6s e0).1.tasks
    = (List.range (batchSize + 1)).map C6step := by
  rw [migrate_tasks, flushedIds_C6s, C6s_geoms, C6s_tasks, List.map_map]
  apply List.map_congr_left
  intro i _
  simp only [Function.comp_apply]
  show (if (nullTask i).id ∈ List.range batchSize
      then migrateTask edgeFrags (nullTask i) else nullTask i) = C6step i
  rfl

lemma C6_cands2 : discoverCandidates (migrate C6s e0).1
    = (List.range batchSize).map Nat.succ := by
  unfold discoverCandidates
  rw [C6_s1_tasks, List.filter_map, List.range_succ_eq_map]
  rw [List.filter_cons_of_neg
    (by simp [Function.comp, isCandidate_C6step_zero])]
  rw [List.filter_map]
  have hself : List.filter ((isCandidate ∘ C6step) ∘ Nat.succ)
      (List.range batchSize) = List.range batchSize := by
    apply List.filter_eq_self.mpr
    intro j hj
    simp only [Function.comp_apply]
    exact isCandidate_C6step_succ j (List.mem_range.mp hj)
  rw [hself, List.map_map, List.map_map]
  apply List.map_congr_left
  intro j hj
  simp only [Function.comp_apply]
  exact C6step_id (j + 1)

lemma C6_flushed2 : flushedIds (migrate C6s e0).1
    = (List.range batchSize).map Nat.succ := by
  have hlen : (discoverCandidates (migrate C6s e0).1).length % batchSize
      = 0 := by
    rw [C6_cands2, List.length_map, List.length_range, Nat.mod_self]
  rw [flushedIds_of_multiple hlen, C6_cands2]

lemma C6_s1_at : (migrate C6s e0).1.tasks[batchSize]?
    = some (nullTask batchSize) := by
  rw [C6_s1_tasks, List.getElem?_map,
    List.getElem?_range (Nat.lt_succ_self batchSize)]
  show some (C6step batchSize) = some (nullTask batchSize)
  rw [C6step_not_mem batchSize (Nat.lt_irrefl batchSize)]

lemma C6_s2_at : (migrate (migrate C6s e0).1 e0).1.tasks[batchSize]?
    = some { nullTask batchSize with
        geojson := some (featureCollectionJson batchSize
          (fragsFor edgeFrags batchSize)),
        geom := some (collectedGeom (fragsFor edgeFrags batchSize)),
        location := some (ST_CENTROID
          (collectedGeom (fragsFor edgeFrags batchSize))) } := by
  rw [migrate_tasks, List.getElem?_map, C6_s1_at]
  have hgeoms : (migrate C6s e0).1.task_geometries = edgeFrags := by
    rw [migrate_geoms, C6s_geoms]
  have hmem : (nullTask batchSize).id ∈ flushedIds (migrate C6s e0).1 := by
    show batchSize ∈ flushedIds (migrate C6s e0).1
    rw [C6_flushed2]
    have hb : batchSize - 1 ∈ List.range batchSize :=
      List.mem_range.mpr (by have := batchSize_pos; omega)
    have hsucc : Nat.succ (batchSize - 1) = batchSize := by
      have := batchSize_pos
      omega
    exact List.mem_map.mpr ⟨batchSize - 1, hb, hsucc⟩
  show some (if (nullTask batchSize).id ∈ flushedIds (migrate C6s e0).1
      then migrateTask (migrate C6s e0).1.task_geometries
        (nullTask batchSize)
      else nullTask batchSize) = _
  rw [if_pos hmem, hgeoms,
    migrateTask_of_ne edgeFrags (nullTask batchSize)
      (by show fragsFor edgeFrags batchSize ≠ []
          rw [fragsFor_edge_top]
          simp)]
  rfl

/-- C6 counterexample: on a store with `batchSize + 1` candidates where
only candidates 0 and `batchSize` carry fragments, the first run flushes
candidates `0 .. batchSize-1` (only task 0 changes), leaving `batchSize`
fresh candidates; the second run therefore flushes a full batch containing
the trailing fragment-bearing task and changes its columns, so running the
migration twice does not equal running it once. -/
theorem spec_C6_cx :
    ¬ ((migrate (migrate C6s e0).1 e0).1 = (migrate C6s e0).1) := by
  intro heq
  have h2 := C6_s2_at
  rw [heq, C6_s1_at] at h2
  have h3 := Option.some.inj h2
  have h4 := congrArg Task.geojson h3
  simp [nullTask] at h4

end MR
